import Mathlib

/-!
Verification development for the openalex-content-api worker.

The repository contains two Cloudflare Worker handlers sharing the same
helpers:

* `src/src/index.ts` — the `/works/{id}/best_oa_location/{pdf|parsed-pdf}`
  endpoint (called the "works" handler below);
* a second worker source embedded in the repository (the `/work/{id}?format=`
  endpoint with a DOI bypass, called the "work" handler below).

Strings are embedded as `List Char`; the JavaScript string operations used by
the source (trim, toUpperCase, split, indexOf, slice, replace with a character
class, startsWith) are modelled as executable functions on `List Char`.
External effects (D1 database, the OpenAlex catalog, DynamoDB, the R2 buckets,
the signed S3 requests) are modelled as oracle functions packaged in a `World`
structure; each handler is a pure function of a `World` and a `Req` returning
the produced `Response` together with the ordered trace of external calls.
-/

set_option maxRecDepth 4000

namespace OAContent

/-- Strings are embedded as lists of characters. -/
abbrev Str := List Char

/-! ## JavaScript string primitives (ASCII fragment) -/

/-- Uppercase one character; ASCII fragment of JavaScript toUpperCase. -/
def jsToUpperChar (c : Char) : Char :=
  if 97 ≤ c.toNat ∧ c.toNat ≤ 122 then Char.ofNat (c.toNat - 32) else c

/-- Lowercase one character; ASCII fragment of JavaScript toLowerCase. -/
def jsToLowerChar (c : Char) : Char :=
  if 65 ≤ c.toNat ∧ c.toNat ≤ 90 then Char.ofNat (c.toNat + 32) else c

/-- JavaScript String.prototype.toUpperCase, ASCII fragment. -/
def jsToUpper (s : Str) : Str := s.map jsToUpperChar

/-- JavaScript String.prototype.toLowerCase, ASCII fragment. -/
def jsToLower (s : Str) : Str := s.map jsToLowerChar

/-- Whitespace recognized by JavaScript String.prototype.trim
(ASCII whitespace plus the common Unicode members of the trim set). -/
def isWsCh (c : Char) : Bool :=
  c.toNat == 9 || c.toNat == 10 || c.toNat == 11 || c.toNat == 12 ||
  c.toNat == 13 || c.toNat == 32 || c.toNat == 160 ||
  c.toNat == 0x2028 || c.toNat == 0x2029 || c.toNat == 0xFEFF

/-- JavaScript String.prototype.trim: drop whitespace at both ends. -/
def jsTrim (s : Str) : Str :=
  ((s.dropWhile isWsCh).reverse.dropWhile isWsCh).reverse

/-- JavaScript String.prototype.split with a one-character separator.
Mirrors the JavaScript semantics: the result is never empty, and empty
segments between adjacent separators are kept. -/
def jsSplit (sep : Char) : Str → List Str
  | [] => [[]]
  | c :: rest =>
    match jsSplit sep rest with
    | h :: t => if c = sep then [] :: h :: t else (c :: h) :: t
    | [] => [[c]]

/-- JavaScript String.prototype.indexOf for a one-character needle, as an
optional position (the source's -1 sentinel is the `none` case). -/
def idxOfChar (c : Char) : Str → Option Nat
  | [] => none
  | a :: as => if a = c then some 0 else (idxOfChar c as).map (· + 1)

/-- Truthiness of a JavaScript string: false exactly for the empty string. -/
def strTruthy (s : Str) : Bool := !s.isEmpty

/-- Truthiness of a nullable JavaScript string. -/
def optTruthy (o : Option Str) : Bool :=
  match o with
  | some s => strTruthy s
  | none => false

/-- JavaScript `a || b` for a nullable string with a string default. -/
def jsOr (o : Option Str) (d : Str) : Str :=
  match o with
  | some s => if s.isEmpty then d else s
  | none => d

/-- JavaScript `x || null` for a nullable string: collapse the falsy empty
string to null. -/
def jsCollapse (o : Option Str) : Option Str :=
  match o with
  | some s => if s.isEmpty then none else some s
  | none => none

/-! ## Regular-expression fragments used by the source -/

/-- Decimal digit, the regex class d. -/
def isDigitCh (c : Char) : Bool := 48 ≤ c.toNat && c.toNat ≤ 57

/-- Full-string match for the case-insensitive pattern caret W digits+ dollar
used by normalizeWorkId. -/
def matchWDigits : Str → Bool
  | [] => false
  | c :: rest => (c == 'W' || c == 'w') && !rest.isEmpty && rest.all isDigitCh

/-- Leftmost match of the end-anchored case-insensitive pattern
slash W digits+ dollar against a URL pathname; returns the matched substring
(including the leading slash), i.e. the source's m[0]. -/
def wSuffixMatch : Str → Option Str
  | [] => none
  | c :: rest =>
    if c = '/' && matchWDigits rest then some ('/' :: rest)
    else wSuffixMatch rest

/-- Attempt, at the current position, the case-insensitive pattern
https colon slash slash openalex dot org slash followed by the capture
group W digits+; returns the capture (the source's match[1]). -/
def oaUrlCapAt (l : Str) : Option Str :=
  let pre : Str := "https://openalex.org/".data
  if jsToLower (l.take pre.length) = pre then
    match l.drop pre.length with
    | c :: rest =>
      if c == 'W' || c == 'w' then
        let ds := rest.takeWhile isDigitCh
        if ds.isEmpty then none else some (c :: ds)
      else none
    | [] => none
  else none

/-- Leftmost match for the unanchored OpenAlex-URL pattern of the second
worker's normalizeWorkId. -/
def oaUrlMatch : Str → Option Str
  | [] => none
  | l :: rest =>
    match oaUrlCapAt (l :: rest) with
    | some cap => some cap
    | none => oaUrlMatch rest

/-! ## Identifier normalization -/

/-- normalizeWorkId of src/src/index.ts.  The platform URL constructor is an
oracle `urlParse` returning the pathname when its argument parses as a URL and
`none` when the constructor throws; the function is otherwise a direct
translation:
empty input is rejected; the trimmed input matching the short-code pattern is
uppercased and returned; otherwise the input is parsed as a URL and the
end-anchored short-code segment of its pathname, when present, is returned
(dropping the leading slash and uppercasing). -/
def normalizeWorkId (urlParse : Str → Option Str) (input : Str) : Option Str :=
  if input.isEmpty then none
  else
    let trimmed := jsTrim input
    if matchWDigits trimmed then some (jsToUpper trimmed)
    else
      match urlParse trimmed with
      | some pathname =>
        match wSuffixMatch pathname with
        | some m => some (jsToUpper (m.drop 1))
        | none => none
      | none => none

/-- normalizeWorkId of the second embedded worker source: same as
`normalizeWorkId` with an extra branch for inputs starting with the literal
https openalex prefix, tried between the short-code test and the URL branch;
when that branch's regex fails to match, control falls through to the URL
branch, as in the source. -/
def normalizeWorkId2 (urlParse : Str → Option Str) (input : Str) : Option Str :=
  if input.isEmpty then none
  else
    let trimmed := jsTrim input
    if matchWDigits trimmed then some (jsToUpper trimmed)
    else
      let viaUrl : Option Str :=
        match urlParse trimmed with
        | some pathname =>
          match wSuffixMatch pathname with
          | some m => some (jsToUpper (m.drop 1))
          | none => none
        | none => none
      if ("https://openalex.org/W".data).isPrefixOf trimmed then
        match oaUrlMatch trimmed with
        | some cap => some (jsToUpper cap)
        | none => viaUrl
      else viaUrl

/-! ## Location-reference parsing -/

/-- Extraction of (scheme, native_id) from best_oa_location.id, lines 64-74 of
src/src/index.ts: `colon = locId.indexOf(":")`; the request is rejected when
`colon <= 0 || colon === locId.length - 1` (the -1 of a missing colon is the
`none` case of `idxOfChar`); otherwise the string is sliced at the first
colon. -/
def parseLocId (locId : Str) : Option (Str × Str) :=
  match idxOfChar ':' locId with
  | none => none
  | some colon =>
    if colon = 0 ∨ colon = locId.length - 1 then none
    else some (locId.take colon, locId.drop (colon + 1))

/-! ## Filename sanitization -/

/-- Membership in the character class of the sanitizing regex:
slash, backslash, colon, asterisk, question mark, double quote,
less-than, greater-than, vertical bar. -/
def isBadFileChar (c : Char) : Bool :=
  c == '/' || c == '\\' || c == ':' || c == '*' || c == '?' ||
  c == '"' || c == '<' || c == '>' || c == '|'

/-- The source's sanitization (line 165 of src/src/index.ts): each character
of the class is replaced by an underscore. -/
def replaceBadChars (s : Str) : Str :=
  s.map (fun c => if isBadFileChar c then '_' else c)

/-- Sanitization as the specification words it (testable property 5 of the
spec): every character of the class is removed and nothing else is altered.
Declared for comparison with `replaceBadChars`. -/
def removeBadChars (s : Str) : Str :=
  s.filter (fun c => !isBadFileChar c)

/-! ## Data model of the external collaborators -/

/-- Row of the api_keys table as selected by checkApiKey:
credit_card_on_file (a SQLite boolean, i.e. an integer coerced with
JavaScript Boolean) and expires_at (DATETIME, NULL meaning never expires). -/
structure ApiKeyRecord where
  credit_card_on_file : Int
  expires_at : Option Str
deriving DecidableEq, Repr

/-- Outcome of the D1 lookup inside checkApiKey: the prepared statement may
throw (fault), find no row, or return a row. -/
inductive DbOutcome where
  | fault
  | notFound
  | found (rec : ApiKeyRecord)
deriving DecidableEq, Repr

/-- One unmarshalled DynamoDB item; only the id attribute is read, and it may
be absent. -/
structure DynItem where
  id : Option Str
deriving DecidableEq, Repr

/-- Outcome of the DynamoDB query: the send may throw (fault) or return a
(possibly empty) item list; an undefined Items array behaves like the empty
list, since both fail the source's `Items && Items.length > 0` guard. -/
inductive DynOutcome where
  | fault
  | ok (items : List DynItem)
deriving DecidableEq, Repr

/-- best_oa_location of an OpenAlex work, as read by the works handler
(src/src/index.ts), where the id field is typed string. -/
structure OALoc1 where
  id : Str
deriving DecidableEq, Repr

/-- OpenAlex work body as read by the works handler. -/
structure OAWork1 where
  best_oa_location : Option OALoc1
deriving DecidableEq, Repr

/-- best_oa_location as read by the second worker, which guards against a
missing id field. -/
structure OALoc2 where
  id : Option Str
deriving DecidableEq, Repr

/-- OpenAlex work body as read by the second worker. -/
structure OAWork2 where
  best_oa_location : Option OALoc2
deriving DecidableEq, Repr

/-- An R2 object returned by a bucket get; the body is an opaque tag. -/
structure R2Obj where
  body : Str
deriving DecidableEq, Repr

/-- An HTTP response from the signed S3 fetch: status plus the two headers the
source reads and an opaque body tag. -/
structure HttpResp where
  status : Nat
  contentType : Option Str
  contentLength : Option Str
  body : Str
deriving DecidableEq, Repr

/-- The inbound request: method, raw pathname, the query parameters the source
reads (json, api_key, format), the Authorization header, and the
serialization of the request URL with the json parameter deleted (the
platform's `url.searchParams.delete("json"); url.toString()`). -/
structure Req where
  method : Str
  pathname : Str
  jsonParam : Option Str
  apiKeyParam : Option Str
  formatParam : Option Str
  authHeader : Option Str
  selfUrlNoJson : Str
deriving DecidableEq, Repr

/-- Oracles for every external collaborator touched in one request, plus the
current time.  `urlParse` models the platform URL constructor (pathname on
success, none when it throws); `r2HeadSupported` models the optional-call
`bucket.head?.` capability check; the R2 oracles take the isGrobid bucket
selector and the object key; the S3 oracles take bucket name and object key
(URL formation and SigV4 signing are transport-level and not modelled). -/
structure World where
  urlParse : Str → Option Str
  db : Str → DbOutcome
  parseDate : Str → Option Int
  now : Int
  openAlex1 : Str → Option OAWork1
  openAlex2 : Str → Option OAWork2
  dynamo : Str → Str → DynOutcome
  r2HeadSupported : Bool
  r2Head : Bool → Str → Bool
  r2Get : Bool → Str → Option R2Obj
  s3HeadStatus : Str → Str → Nat
  s3GetResp : Str → Str → HttpResp

/-- External calls, in the order the handler awaits them. -/
inductive Ev where
  | evDbLookup (key : Str)
  | evOpenAlex (workId : Str)
  | evDynamo (table : Str) (nativeId : Str)
  | evR2Head (grobid : Bool) (key : Str)
  | evR2Get (grobid : Bool) (key : Str)
  | evS3Head (bucket : Str) (key : Str)
  | evS3Get (bucket : Str) (key : Str)
deriving DecidableEq, Repr

/-- Whether an event is a call to the backup (S3) tier. -/
def Ev.isS3 : Ev → Bool
  | .evS3Head _ _ => true
  | .evS3Get _ _ => true
  | _ => false

/-- Whether an event is the OpenAlex catalog lookup. -/
def Ev.isCatalog : Ev → Bool
  | .evOpenAlex _ => true
  | _ => false

/-- JSON value fragment used in the extra fields of error objects. -/
inductive JVal where
  | s (v : Str)
  | nullv
deriving DecidableEq, Repr

/-- An error object passed to jsonOrText: the error label, the optional
message field, and the remaining diagnostic fields. -/
structure ErrObj where
  error : Str
  message : Option Str := none
  extras : List (Str × JVal) := []
deriving DecidableEq, Repr

/-- The JSON document of the metadata (json=true) success path, one field per
property of the source's object literal. -/
structure MetaBody where
  work_id : Str
  work_api : Option Str
  best_oa_location_id : Option Str
  native_id : Str
  native_id_namespace : Str
  mapping_found_in_dynamodb : Bool
  file_uuid : Option Str
  file_key : Option Str
  in_r2 : Bool
  in_s3 : Bool
  download_url : Option Str
deriving DecidableEq, Repr

/-- Where the streamed bytes of a download-mode success came from. -/
inductive StreamSrc where
  | fromR2 (o : R2Obj)
  | fromS3 (r : HttpResp)
deriving DecidableEq, Repr

/-- A response body: plain text, a JSON error object, the JSON metadata
document, or a byte stream. -/
inductive Body where
  | text (s : Str)
  | errJson (e : ErrObj)
  | metaJson (m : MetaBody)
  | stream (src : StreamSrc)
deriving DecidableEq, Repr

/-- The produced response: status, body, and the headers the source sets.
`contentDispositionFilename` is the sanitized filename interpolated (twice,
directly and percent-encoded) into the Content-Disposition header value. -/
structure Response where
  status : Nat
  body : Body
  contentType : Option Str := none
  contentDispositionFilename : Option Str := none
  cacheControl : Option Str := none
  contentLength : Option Str := none
deriving DecidableEq, Repr

/-! ## Response helpers of the source -/

/-- The json helper: serialize with Content-Type application/json and
Cache-Control no-store. -/
def jsonResp (status : Nat) (b : Body) : Response :=
  { status := status, body := b,
    contentType := some "application/json".data,
    cacheControl := some "no-store".data }

/-- A bare `new Response(text, { status })`. -/
def textResp (status : Nat) (s : Str) : Response :=
  { status := status, body := .text s }

/-- Minimal model of JSON.stringify for an error object, reached only when the
error field is falsy (which no call site produces). -/
def stringifyErr (e : ErrObj) : Str :=
  "\x7b".data ++ e.error ++ "\x7d".data

/-- The jsonOrText helper: in json mode, the full object through the json
helper; otherwise a plain-text response whose body is
`obj.error ? String(obj.error) : JSON.stringify(obj)`. -/
def jsonOrText (wantJson : Bool) (status : Nat) (obj : ErrObj) : Response :=
  if wantJson then jsonResp status (.errJson obj)
  else textResp status (if strTruthy obj.error then obj.error else stringifyErr obj)

/-! ## Authentication (checkApiKey, identical in both worker sources) -/

/-- Credential extraction: the api_key query parameter, else the token of a
Bearer Authorization header; a falsy (empty) candidate at either step behaves
as absent, per the source's truthiness tests. -/
def extractApiKey (req : Req) : Option Str :=
  let fromQuery : Option Str :=
    match req.apiKeyParam with
    | some k => if k.isEmpty then none else some k
    | none => none
  let key : Option Str :=
    match fromQuery with
    | some k => some k
    | none =>
      match req.authHeader with
      | some h =>
        if ("Bearer ".data).isPrefixOf h then some (h.drop 7) else none
      | none => none
  match key with
  | some k => if k.isEmpty then none else some k
  | none => none

/-- Result record of checkApiKey. -/
structure AuthResult where
  valid : Bool
  hasCreditCard : Bool
  error : Option Str := none
deriving DecidableEq, Repr

/-- The expiry test of checkApiKey: a truthy expires_at whose parsed date is
less than or equal to now yields the stored timestamp (the expired case); a
null or empty expires_at, an unparseable date (NaN compares false in the
source), or a future date yield none. -/
def expiredTs (w : World) (rec : ApiKeyRecord) : Option Str :=
  match rec.expires_at with
  | some es =>
    if es.isEmpty then none
    else
      match w.parseDate es with
      | some t => if t ≤ w.now then some es else none
      | none => none
  | none => none

/-- checkApiKey: missing credential fails without a lookup; a throwing lookup
yields the Database error; an absent row yields not-found; an expired record
yields the expired error carrying the stored timestamp; otherwise valid with
the coerced credit-card flag.  The second component is the trace of database
calls. -/
def checkApiKey (w : World) (req : Req) : AuthResult × List Ev :=
  match extractApiKey req with
  | none => (⟨false, false, none⟩, [])
  | some apiKey =>
    match w.db apiKey with
    | .fault => (⟨false, false, some "Database error".data⟩, [.evDbLookup apiKey])
    | .notFound => (⟨false, false, some "API key not found".data⟩, [.evDbLookup apiKey])
    | .found rec =>
      match expiredTs w rec with
      | some es =>
        (⟨false, false, some ("API key expired on ".data ++ es)⟩, [.evDbLookup apiKey])
      | none =>
        (⟨true, rec.credit_card_on_file ≠ 0, none⟩, [.evDbLookup apiKey])

/-- Substring occurrence test, used to state what a response body carries. -/
def hasSubstr (needle : Str) : Str → Bool
  | [] => needle.isEmpty
  | c :: rest => needle.isPrefixOf (c :: rest) || hasSubstr needle rest

/-! ## S3 helpers -/

/-- Backup bucket constants of both worker sources. -/
def PDF_S3_BACKUP_BUCKET : Str := "openalex-harvested-pdfs".data

/-- Backup bucket for parsed-text artifacts. -/
def GROBID_S3_BACKUP_BUCKET : Str := "openalex-harvested-grobid-xml".data

/-- Virtual-hosted S3 host selection of the source. -/
def s3Host (bucket region : Str) : Str :=
  if region = "us-east-1".data then bucket ++ ".s3.amazonaws.com".data
  else bucket ++ ".s3.".data ++ region ++ ".amazonaws.com".data

/-- s3HeadObject: a signed HEAD whose status alone decides the result — 200
means present, 404 and 403 mean absent, and any other status is logged and
likewise treated as absent; no status is thrown. -/
def s3HeadObject (w : World) (bucket key : Str) : Bool :=
  let status := w.s3HeadStatus bucket key
  if status = 200 then true
  else if status = 404 ∨ status = 403 then false
  else false

/-- s3GetObject: a signed GET returned whole on status 200; 404 and 403 yield
null, and any other status is logged and likewise yields null, never thrown. -/
def s3GetObject (w : World) (bucket key : Str) : Option HttpResp :=
  let resp := w.s3GetResp bucket key
  if resp.status = 200 then some resp
  else if resp.status = 404 ∨ resp.status = 403 then none
  else none

/-- Response.ok of the fetch API: status in the 200-299 range. -/
def respOk (r : HttpResp) : Bool := 200 ≤ r.status && r.status ≤ 299

/-! ## Artifact-kind derived constants -/

/-- DynamoDB table per artifact kind. -/
def tableOf (g : Bool) : Str := if g then "grobid-xml".data else "harvested-pdf".data

/-- Storage-key extension per artifact kind. -/
def fileExtOf (g : Bool) : Str := if g then ".xml.gz".data else ".pdf".data

/-- Backup bucket per artifact kind. -/
def s3BucketOf (g : Bool) : Str :=
  if g then GROBID_S3_BACKUP_BUCKET else PDF_S3_BACKUP_BUCKET

/-- Content type per artifact kind. -/
def contentTypeOf (g : Bool) : Str :=
  if g then "application/gzip".data else "application/pdf".data

/-- Human label per artifact kind, used in the not-found texts. -/
def fileTypeOf (g : Bool) : Str := if g then "Grobid XML".data else "PDF".data

/-- The work_api URL of the metadata document. -/
def apiUrl (workId : Str) : Str :=
  "https://api.openalex.org/works/".data ++ workId ++ "?data-version=2".data

/-- JSON value of a nullable string extra. -/
def jvalOfOpt (o : Option Str) : JVal :=
  match o with
  | some s => .s s
  | none => .nullv

/-- The not-found text of the stream path when both tiers miss. -/
def notFoundMsg (g : Bool) (key : Str) : Str :=
  fileTypeOf g ++ " not found in R2 or S3 (".data ++ key ++ ")".data

/-! ## Tiered retrieval -/

/-- Stream-mode tiered retrieval (lines 164-196 of src/src/index.ts, shared
verbatim by the second worker): try the primary (R2) get; on a hit respond
from it; on a miss issue the signed backup (S3) get and respond from it when
ok; otherwise 404.  `nameId` is the identifier interpolated into the sanitized
filename, `key` the derived storage key. -/
def streamRetrieve (w : World) (g : Bool) (nameId key : Str) : Response × List Ev :=
  let safeName := replaceBadChars nameId ++ fileExtOf g
  match w.r2Get g key with
  | some obj =>
    ({ status := 200, body := .stream (.fromR2 obj),
       contentType := some (contentTypeOf g),
       contentDispositionFilename := some safeName,
       cacheControl := some "private, no-store".data },
     [.evR2Get g key])
  | none =>
    let s3b := s3BucketOf g
    match s3GetObject w s3b key with
    | some resp =>
      if respOk resp then
        ({ status := 200, body := .stream (.fromS3 resp),
           contentType := some (jsOr resp.contentType (contentTypeOf g)),
           contentDispositionFilename := some safeName,
           cacheControl := some "private, no-store".data,
           contentLength := jsCollapse resp.contentLength },
         [.evR2Get g key, .evS3Get s3b key])
      else
        (textResp 404 (notFoundMsg g key), [.evR2Get g key, .evS3Get s3b key])
    | none =>
      (textResp 404 (notFoundMsg g key), [.evR2Get g key, .evS3Get s3b key])

/-- Metadata-mode tier availability: when the key exists, probe R2 (head when
the capability is present, falling back to a get used as an existence proxy)
and then always probe the backup with a signed HEAD. -/
def metaCheck (w : World) (g : Bool) (r2Key : Option Str) : (Bool × Bool) × List Ev :=
  match r2Key with
  | none => ((false, false), [])
  | some key =>
    let s3b := s3BucketOf g
    let probe : Bool × List Ev :=
      if w.r2HeadSupported then
        if w.r2Head g key then (true, [.evR2Head g key])
        else
          match w.r2Get g key with
          | some _ => (true, [.evR2Head g key, .evR2Get g key])
          | none => (false, [.evR2Head g key, .evR2Get g key])
      else
        match w.r2Get g key with
        | some _ => (true, [.evR2Get g key])
        | none => (false, [.evR2Get g key])
    ((probe.1, s3HeadObject w s3b key), probe.2 ++ [.evS3Head s3b key])

/-- The shared tail of both handlers, from the DynamoDB query on (steps 3-5
of each source).  The parameters absorb the only differences between the two
copies: `errWid` is the work_id of the 500 diagnostics (workId in the works
handler, workId falling back to the raw input in the second worker), `nameId`
feeds the sanitized filename (likewise), `workApi` and `locIdOpt` are the
respectively nullable work_api and best_oa_location_id of the outputs. -/
def resolveTail (w : World) (g wantJson : Bool) (selfUrl rawId errWid nameId : Str)
    (workApi locIdOpt : Option Str) (scheme nativeId : Str) : Response × List Ev :=
  let tableName := tableOf g
  let fileExt := fileExtOf g
  match w.dynamo tableName nativeId with
  | .fault =>
    (jsonOrText wantJson 500
      ⟨"Internal server error (DynamoDB)".data, none,
        [("work_id".data, .s errWid),
         ("best_oa_location_id".data, jvalOfOpt locIdOpt),
         ("scheme".data, .s scheme),
         ("native_id".data, .s nativeId),
         ("table_name".data, .s tableName)]⟩,
     [.evDynamo tableName nativeId])
  | .ok items =>
    let uuid : Option Str :=
      match items.head? with
      | some it => it.id
      | none => none
    let mappingFound := optTruthy uuid
    let r2Key : Option Str :=
      match uuid with
      | some u => if u.isEmpty then none else some (u ++ fileExt)
      | none => none
    if wantJson then
      let mc := metaCheck w g r2Key
      let downloadUrl := if optTruthy r2Key && (mc.1.1 || mc.1.2) then some selfUrl else none
      (jsonResp 200 (.metaJson
        { work_id := rawId, work_api := workApi, best_oa_location_id := locIdOpt,
          native_id := nativeId, native_id_namespace := scheme,
          mapping_found_in_dynamodb := mappingFound,
          file_uuid := jsCollapse uuid, file_key := r2Key,
          in_r2 := mc.1.1, in_s3 := mc.1.2, download_url := downloadUrl }),
       .evDynamo tableName nativeId :: mc.2)
    else
      match uuid with
      | some u =>
        if u.isEmpty then
          (textResp 404 (fileTypeOf g ++ " mapping not found (native_id not in DB)".data),
           [.evDynamo tableName nativeId])
        else
          let sr := streamRetrieve w g nameId (u ++ fileExt)
          (sr.1, .evDynamo tableName nativeId :: sr.2)
      | none =>
        (textResp 404 (fileTypeOf g ++ " mapping not found (native_id not in DB)".data),
         [.evDynamo tableName nativeId])

/-! ## The works handler (src/src/index.ts) -/

/-- Steps 1-2 of the works handler: the OpenAlex lookup and the location
parse, given a canonical work id, continuing into the shared tail. -/
def worksOaStage (w : World) (g wantJson : Bool) (selfUrl rawId workId : Str) :
    Response × List Ev :=
  match w.openAlex1 workId with
  | none =>
    (jsonOrText wantJson 404
      ⟨"No best_oa_location for this work".data, none, [("work_id".data, .s workId)]⟩,
     [.evOpenAlex workId])
  | some oa =>
    match oa.best_oa_location with
    | none =>
      (jsonOrText wantJson 404
        ⟨"No best_oa_location for this work".data, none, [("work_id".data, .s workId)]⟩,
       [.evOpenAlex workId])
    | some loc =>
      let locId := loc.id
      match parseLocId locId with
      | none =>
        (jsonOrText wantJson 502
          ⟨"Unrecognized best_oa_location.id format".data, none,
            [("work_id".data, .s workId), ("best_oa_location_id".data, .s locId)]⟩,
         [.evOpenAlex workId])
      | some (scheme, nativeId) =>
        let rt := resolveTail w g wantJson selfUrl rawId workId workId
          (some (apiUrl workId)) (some locId) scheme nativeId
        (rt.1, .evOpenAlex workId :: rt.2)

/-- The authorization gate of the works handler: a failed validation yields
401 with the auth error (or the fixed hint) as message; a valid credential
without the credit-card flag yields 403; otherwise control continues into the
OpenAlex stage. -/
def worksAuthStage (w : World) (req : Req) (g wantJson : Bool) (rawId workId : Str) :
    Response × List Ev :=
  let ck := checkApiKey w req
  if !ck.1.valid then
    (jsonOrText wantJson 401
      ⟨"Invalid or missing API key".data,
       some (jsOr ck.1.error
         "Provide a valid API key in 'api_key' query parameter or 'Authorization' header".data),
       []⟩, ck.2)
  else if !ck.1.hasCreditCard then
    (jsonOrText wantJson 403
      ⟨"Payment required".data,
       some "A credit card on file is required to download files".data, []⟩, ck.2)
  else
    let st := worksOaStage w g wantJson req.selfUrlNoJson rawId workId
    (st.1, ck.2 ++ st.2)

/-- The works handler, fetch of src/src/index.ts: GET only; path shape
works/{id}/best_oa_location/{pdf|parsed-pdf}; identifier normalization (400 on
failure); then the authorization gate and the resolution pipeline. -/
def handleWorks (w : World) (req : Req) : Response × List Ev :=
  if req.method ≠ "GET".data then (textResp 405 "Method Not Allowed".data, [])
  else
    let parts := jsSplit '/' (req.pathname.dropWhile (· = '/'))
    if parts.length = 4 ∧ parts.getD 0 [] = "works".data ∧
        parts.getD 2 [] = "best_oa_location".data ∧
        (parts.getD 3 [] = "pdf".data ∨ parts.getD 3 [] = "parsed-pdf".data) then
      let g := parts.getD 3 [] == "parsed-pdf".data
      let wantJson := jsToLower (jsOr req.jsonParam []) == "true".data
      let rawId := parts.getD 1 []
      match normalizeWorkId w.urlParse rawId with
      | none =>
        (jsonOrText wantJson 400
          ⟨"Invalid work id".data, none, [("work_id_input".data, .s rawId)]⟩, [])
      | some workId => worksAuthStage w req g wantJson rawId workId
    else (textResp 404 "Not Found".data, [])

/-! ## The second worker (the /work/{id}?format= endpoint with DOI bypass) -/

/-- Identifier classification of the second worker: a raw input starting with
the DOI prefix carries itself as native_id (workId stays null), otherwise the
normalized canonical work id is carried. -/
inductive IdState where
  | doi (nativeId : Str)
  | native (workId : Str)
deriving DecidableEq, Repr

/-- Post-authorization resolution of the second worker: the DOI case goes
straight to the shared tail with scheme doi and no catalog call; the native
case performs the OpenAlex lookup, guards a missing best_oa_location.id, and
parses the composite before the shared tail. -/
def workResolveStage (w : World) (req : Req) (g wantJson : Bool) (rawId : Str) :
    IdState → Response × List Ev
  | .doi nid =>
    resolveTail w g wantJson req.selfUrlNoJson rawId rawId rawId none none "doi".data nid
  | .native wid =>
    match w.openAlex2 wid with
    | none =>
      (jsonOrText wantJson 404
        ⟨"No best_oa_location for this work".data, none, [("work_id".data, .s wid)]⟩,
       [.evOpenAlex wid])
    | some oa =>
      match oa.best_oa_location with
      | none =>
        (jsonOrText wantJson 404
          ⟨"No best_oa_location for this work".data, none, [("work_id".data, .s wid)]⟩,
         [.evOpenAlex wid])
      | some loc =>
        match jsCollapse loc.id with
        | none =>
          (jsonOrText wantJson 502
            ⟨"Missing best_oa_location.id".data, none, [("work_id".data, .s wid)]⟩,
           [.evOpenAlex wid])
        | some lid =>
          match parseLocId lid with
          | none =>
            (jsonOrText wantJson 502
              ⟨"Unrecognized best_oa_location.id format".data, none,
                [("work_id".data, .s wid), ("best_oa_location_id".data, .s lid)]⟩,
             [.evOpenAlex wid])
          | some (scheme, nativeId) =>
            let rt := resolveTail w g wantJson req.selfUrlNoJson rawId wid wid
              (some (apiUrl wid)) (some lid) scheme nativeId
            (rt.1, .evOpenAlex wid :: rt.2)

/-- The authorization gate of the second worker (same text as the works
handler), continuing into the post-authorization resolution. -/
def workAuthStage (w : World) (req : Req) (g wantJson : Bool) (rawId : Str)
    (st : IdState) : Response × List Ev :=
  let ck := checkApiKey w req
  if !ck.1.valid then
    (jsonOrText wantJson 401
      ⟨"Invalid or missing API key".data,
       some (jsOr ck.1.error
         "Provide a valid API key in 'api_key' query parameter or 'Authorization' header".data),
       []⟩, ck.2)
  else if !ck.1.hasCreditCard then
    (jsonOrText wantJson 403
      ⟨"Payment required".data,
       some "A credit card on file is required to download files".data, []⟩, ck.2)
  else
    let rs := workResolveStage w req g wantJson rawId st
    (rs.1, ck.2 ++ rs.2)

/-- The second worker's fetch: GET only; path shape work/{id}; the format
query parameter must be pdf or parsed-pdf (400 otherwise); an id starting
with the DOI prefix bypasses normalization and the catalog with scheme doi,
any other id is normalized (400 on failure); then authorization and the
resolution pipeline. -/
def handleWork (w : World) (req : Req) : Response × List Ev :=
  if req.method ≠ "GET".data then (textResp 405 "Method Not Allowed".data, [])
  else
    let parts := jsSplit '/' (req.pathname.dropWhile (· = '/'))
    if parts.length = 2 ∧ parts.getD 0 [] = "work".data then
      let fm := jsOr req.formatParam []
      if fm = "pdf".data ∨ fm = "parsed-pdf".data then
        let g := fm == "parsed-pdf".data
        let wantJson := jsToLower (jsOr req.jsonParam []) == "true".data
        let rawId := parts.getD 1 []
        if ("10.".data).isPrefixOf rawId then
          workAuthStage w req g wantJson rawId (.doi rawId)
        else
          match normalizeWorkId2 w.urlParse rawId with
          | none =>
            (jsonOrText wantJson 400
              ⟨"Invalid work id".data, none, [("work_id_input".data, .s rawId)]⟩, [])
          | some wid => workAuthStage w req g wantJson rawId (.native wid)
      else
        (textResp 400
          "Bad Request: format query parameter must be 'pdf' or 'parsed-pdf'".data, [])
    else (textResp 404 "Not Found".data, [])

/-! ## Concrete sample worlds and requests for evaluation -/

/-- A base world: every oracle fails closed. -/
def baseWorld : World where
  urlParse := fun _ => none
  db := fun _ => .notFound
  parseDate := fun _ => none
  now := 0
  openAlex1 := fun _ => none
  openAlex2 := fun _ => none
  dynamo := fun _ _ => .fault
  r2HeadSupported := false
  r2Head := fun _ _ => false
  r2Get := fun _ _ => none
  s3HeadStatus := fun _ _ => 404
  s3GetResp := fun _ _ => ⟨404, none, none, []⟩

/-- A GET request for the works endpoint in stream mode with a query
credential. -/
def baseReq : Req where
  method := "GET".data
  pathname := "/works/W1/best_oa_location/pdf".data
  jsonParam := none
  apiKeyParam := some "k".data
  formatParam := none
  authHeader := none
  selfUrlNoJson := "https://host/works/W1/best_oa_location/pdf".data

/-- The base request in metadata (json=true) mode. -/
def baseReqJson : Req := { baseReq with jsonParam := some "true".data }

/-- A world whose primary tier always hits. -/
def hitWorld : World := { baseWorld with r2Get := fun _ _ => some ⟨"bytes".data⟩ }

/-- A world with a valid, payment-eligible, never-expiring credential, an
OpenAlex location, and an index with no matching entry. -/
def c4World : World :=
  { baseWorld with
    db := fun _ => .found ⟨1, none⟩
    openAlex1 := fun _ => some ⟨some ⟨"doi:10.1/abc".data⟩⟩
    dynamo := fun _ _ => .ok [] }

/-- A world whose stored credential expired at parsed time 0 while now is 5. -/
def c6World : World :=
  { baseWorld with
    db := fun _ => .found ⟨1, some "2020-01-01".data⟩
    parseDate := fun _ => some 0
    now := 5 }

/-- A request for the second worker's DOI path in stream mode. -/
def doiReq : Req :=
  { baseReq with pathname := "/work/10.55x".data, formatParam := some "pdf".data }

/-- A world for the DOI scenario: valid credential, index maps to uuid u1,
artifact present only in the backup tier. -/
def doiWorld : World :=
  { baseWorld with
    db := fun _ => .found ⟨1, none⟩
    dynamo := fun _ _ => .ok [⟨some "u1".data⟩]
    s3GetResp := fun _ _ => ⟨200, some "application/pdf".data, some "10".data, "s3bytes".data⟩ }

/-! ## Character-level lemmas -/

lemma digit_toNat {c : Char} (h : isDigitCh c = true) :
    48 ≤ c.toNat ∧ c.toNat ≤ 57 := by
  simpa [isDigitCh] using h

lemma digit_toUpper {c : Char} (h : isDigitCh c = true) : jsToUpperChar c = c := by
  have hb := digit_toNat h
  unfold jsToUpperChar
  rw [if_neg]
  omega

lemma digit_not_ws {c : Char} (h : isDigitCh c = true) : isWsCh c = false := by
  have hb := digit_toNat h
  unfold isWsCh
  simp only [Bool.or_eq_false_iff, beq_eq_false_iff_ne, ne_eq]
  omega

lemma digit_not_bad {c : Char} (h : isDigitCh c = true) : isBadFileChar c = false := by
  have hb := digit_toNat h
  unfold isBadFileChar
  simp only [Bool.or_eq_false_iff, beq_eq_false_iff_ne, ne_eq]
  refine ⟨⟨⟨⟨⟨⟨⟨⟨?_, ?_⟩, ?_⟩, ?_⟩, ?_⟩, ?_⟩, ?_⟩, ?_⟩, ?_⟩ <;>
    · rintro rfl; revert hb; decide

lemma digits_map_toUpper {ds : Str} (h : ds.all isDigitCh = true) :
    ds.map jsToUpperChar = ds := by
  induction ds with
  | nil => rfl
  | cons d t ih =>
    rw [List.all_cons, Bool.and_eq_true] at h
    simp [digit_toUpper h.1, ih h.2]

/-! ## Canonical identifiers -/

/-- The canonical form produced by the normalizers: the uppercase letter W
followed by at least one decimal digit. -/
def CanonId (s : Str) : Prop :=
  ∃ ds, s = 'W' :: ds ∧ ds ≠ [] ∧ ds.all isDigitCh = true

lemma canon_trim {s : Str} (h : CanonId s) : jsTrim s = s := by
  obtain ⟨ds, rfl, hne, hall⟩ := h
  unfold jsTrim
  rw [List.dropWhile_cons]
  have hW : isWsCh 'W' = false := by decide
  rw [hW]
  simp only [Bool.false_eq_true, if_false]
  obtain ⟨d, t, hdt⟩ := List.exists_cons_of_ne_nil (List.reverse_eq_nil_iff.not.mpr hne ∘ List.reverse_eq_nil_iff.mp ∘ id |> fun _ => (by simpa using hne : ds.reverse ≠ []))
  rw [List.reverse_cons, hdt, List.cons_append, List.dropWhile_cons]
  have hd : isDigitCh d = true := by
    have : d ∈ ds := by
      have : d ∈ ds.reverse := by rw [hdt]; exact List.mem_cons_self d t
      simpa using this
    exact List.all_eq_true.mp hall d this
  rw [digit_not_ws hd]
  simp only [Bool.false_eq_true, if_false]
  rw [← List.cons_append, ← hdt, ← List.reverse_cons, List.reverse_reverse]

lemma canon_match {s : Str} (h : CanonId s) : matchWDigits s = true := by
  obtain ⟨ds, rfl, hne, hall⟩ := h
  simp [matchWDigits, hne, hall]

lemma canon_toUpper {s : Str} (h : CanonId s) : jsToUpper s = s := by
  obtain ⟨ds, rfl, hne, hall⟩ := h
  simp [jsToUpper, digits_map_toUpper hall]
  decide

lemma digits_map_keep {ds : Str} (h : ds.all isDigitCh = true) :
    ds.map (fun c => if isBadFileChar c then '_' else c) = ds := by
  induction ds with
  | nil => rfl
  | cons d t ih =>
    rw [List.all_cons, Bool.and_eq_true] at h
    rw [List.map_cons, digit_not_bad h.1]
    simp only [Bool.false_eq_true, if_false]
    rw [ih h.2]

lemma canon_replaceBad {s : Str} (h : CanonId s) : replaceBadChars s = s := by
  obtain ⟨ds, rfl, hne, hall⟩ := h
  unfold replaceBadChars
  rw [List.map_cons]
  have hW : isBadFileChar 'W' = false := by decide
  rw [hW]
  simp only [Bool.false_eq_true, if_false]
  rw [digits_map_keep hall]

lemma canon_removeBad {s : Str} (h : CanonId s) : removeBadChars s = s := by
  obtain ⟨ds, rfl, hne, hall⟩ := h
  unfold removeBadChars
  rw [List.filter_cons]
  have hW : isBadFileChar 'W' = false := by decide
  rw [hW]
  simp only [Bool.not_false, if_true]
  congr 1
  apply List.filter_eq_self.mpr
  intro d hd
  rw [digit_not_bad (List.all_eq_true.mp hall d hd)]
  rfl

/-! ## Shape lemmas for the normalizer -/

lemma matchWDigits_shape {s : Str} (h : matchWDigits s = true) :
    ∃ c ds, s = c :: ds ∧ (c = 'W' ∨ c = 'w') ∧ ds ≠ [] ∧ ds.all isDigitCh = true := by
  cases s with
  | nil => simp [matchWDigits] at h
  | cons c ds =>
    simp only [matchWDigits, Bool.and_eq_true, Bool.or_eq_true, beq_iff_eq,
      Bool.not_eq_true', List.isEmpty_eq_false] at h
    exact ⟨c, ds, rfl, h.1.1, by simpa using h.1.2, h.2⟩

lemma upper_head_shape {c : Char} {ds : Str} (hc : c = 'W' ∨ c = 'w')
    (hne : ds ≠ []) (hall : ds.all isDigitCh = true) :
    CanonId (jsToUpper (c :: ds)) := by
  refine ⟨ds, ?_, hne, hall⟩
  unfold jsToUpper
  rw [List.map_cons, digits_map_toUpper hall]
  rcases hc with rfl | rfl <;> rfl

lemma wSuffixMatch_shape {p m : Str} (h : wSuffixMatch p = some m) :
    ∃ c ds, m = '/' :: c :: ds ∧ (c = 'W' ∨ c = 'w') ∧ ds ≠ [] ∧
      ds.all isDigitCh = true := by
  induction p with
  | nil => simp [wSuffixMatch] at h
  | cons a rest ih =>
    rw [wSuffixMatch] at h
    by_cases hcond : (a = '/' && matchWDigits rest) = true
    · rw [if_pos hcond] at h
      rw [Bool.and_eq_true, decide_eq_true_eq] at hcond
      obtain ⟨c, ds, hrest, hc, hne, hall⟩ := matchWDigits_shape hcond.2
      obtain rfl := (Option.some.inj h).symm
      obtain rfl := hcond.1
      exact ⟨c, ds, by rw [hrest], hc, hne, hall⟩
    · rw [if_neg hcond] at h
      exact ih h

/-- Every identifier accepted by normalizeWorkId is canonical. -/
lemma normalizeWorkId_image {up : Str → Option Str} {x wid : Str}
    (h : normalizeWorkId up x = some wid) : CanonId wid := by
  unfold normalizeWorkId at h
  by_cases hx : x.isEmpty
  · rw [if_pos hx] at h; exact absurd h (by simp)
  · rw [if_neg hx] at h
    by_cases hm : matchWDigits (jsTrim x) = true
    · rw [if_pos hm] at h
      obtain ⟨c, ds, heq, hc, hne, hall⟩ := matchWDigits_shape hm
      rw [heq] at h
      obtain rfl := Option.some.inj h
      exact upper_head_shape hc hne hall
    · rw [if_neg hm] at h
      cases hup : up (jsTrim x) with
      | none => simp only [hup] at h; exact absurd h (by simp)
      | some pathname =>
        simp only [hup] at h
        cases hw : wSuffixMatch pathname with
        | none => simp only [hw] at h; exact absurd h (by simp)
        | some m =>
          simp only [hw, Option.some.injEq] at h
          obtain ⟨c, ds, hm2, hc, hne, hall⟩ := wSuffixMatch_shape hw
          rw [← h, hm2]
          exact upper_head_shape hc hne hall

/-- On a canonical identifier the normalizer is the identity. -/
lemma normalizeWorkId_canon {up : Str → Option Str} {s : Str} (h : CanonId s) :
    normalizeWorkId up s = some s := by
  have hne : ¬ s.isEmpty := by
    obtain ⟨ds, rfl, _, _⟩ := h
    simp
  unfold normalizeWorkId
  rw [if_neg hne, canon_trim h, if_pos (canon_match h), canon_toUpper h]

/-- Claim C8: normalizeWorkId is idempotent — whenever it accepts an input
and returns a canonical identifier, applying it to that result returns the
same identifier unchanged, for every behavior of the platform URL parser. -/
theorem claim_c8 (up : Str → Option Str) (x wid : Str)
    (h : normalizeWorkId up x = some wid) :
    normalizeWorkId up wid = some wid :=
  normalizeWorkId_canon (normalizeWorkId_image h)

/-- Witness for claim C8 at the concrete input lowercase w123 with a
URL-parser oracle that always fails. -/
theorem claim_c8_witness :
    normalizeWorkId (fun _ => none) "w123".data = some "W123".data ∧
    normalizeWorkId (fun _ => none) "W123".data = some "W123".data :=
  ⟨by decide, claim_c8 (fun _ => none) "w123".data "W123".data (by decide)⟩

/-! ## Lemmas about indexOf -/

lemma idx_none_iff (c : Char) (l : Str) : idxOfChar c l = none ↔ c ∉ l := by
  induction l with
  | nil => simp [idxOfChar]
  | cons a as ih =>
    rw [idxOfChar]
    by_cases hac : a = c
    · subst hac
      simp
    · rw [if_neg hac, Option.map_eq_none', ih, List.mem_cons]
      constructor
      · intro h hm
        rcases hm with hm | hm
        · exact hac hm.symm
        · exact h hm
      · intro h hm
        exact h (Or.inr hm)

lemma idx_some_decomp {c : Char} {l : Str} {i : Nat} (h : idxOfChar c l = some i) :
    l.take i ++ c :: l.drop (i + 1) = l ∧ c ∉ l.take i ∧ i < l.length := by
  induction l generalizing i with
  | nil => simp [idxOfChar] at h
  | cons a as ih =>
    rw [idxOfChar] at h
    by_cases hac : a = c
    · rw [if_pos hac] at h
      obtain rfl := (Option.some.inj h).symm
      subst hac
      simp
    · rw [if_neg hac] at h
      cases hj : idxOfChar c as with
      | none => rw [hj] at h; simp at h
      | some j =>
        rw [hj] at h
        simp only [Option.map_some', Option.some.injEq] at h
        obtain rfl := h.symm
        obtain ⟨h1, h2, h3⟩ := ih hj
        refine ⟨?_, ?_, ?_⟩
        · rw [List.take_succ_cons, List.drop_succ_cons, List.cons_append, h1]
        · intro hm
          rw [List.take_succ_cons, List.mem_cons] at hm
          rcases hm with hm | hm
          · exact hac hm.symm
          · exact h2 hm
        · simp only [List.length_cons]
          omega

lemma idx_append (c : Char) (s t : Str) (h : c ∉ s) :
    idxOfChar c (s ++ c :: t) = some s.length := by
  induction s with
  | nil => simp [idxOfChar]
  | cons a as ih =>
    have hac : a ≠ c := fun he => h (he ▸ List.mem_cons_self a as)
    rw [List.cons_append, idxOfChar, if_neg hac,
      ih (fun hm => h (List.mem_cons_of_mem a hm))]
    rfl

/-! ## Claim C3: location-reference parsing -/

/-- The malformation condition as the specification states it: no colon, a
colon at position 0, or the first colon as the last character. -/
def malformedRef (l : Str) : Prop :=
  (':' ∉ l) ∨ (∃ t, l = ':' :: t) ∨ (∃ s, l = s ++ [':'] ∧ ':' ∉ s)

/-- Claim C3: the location-reference parse of the works handler fails (and
the handler then answers 502 Unrecognized best_oa_location.id format) exactly
on malformed composites — no colon, colon at position 0, or the first colon
as the last character — and a well-formed composite is split at its first
colon into a nonempty scheme and nonempty native id, not rejected. -/
theorem claim_c3 (l : Str) :
    (parseLocId l = none ↔ malformedRef l) ∧
    (∀ sch nid, parseLocId l = some (sch, nid) →
      l = sch ++ ':' :: nid ∧ ':' ∉ sch ∧ sch ≠ [] ∧ nid ≠ []) ∧
    (∀ (w : World) (g wantJson : Bool) (selfUrl rawId workId : Str)
        (oa : OAWork1) (loc : OALoc1),
      w.openAlex1 workId = some oa → oa.best_oa_location = some loc →
      loc.id = l → parseLocId l = none →
      (worksOaStage w g wantJson selfUrl rawId workId).1 =
        jsonOrText wantJson 502
          ⟨"Unrecognized best_oa_location.id format".data, none,
            [("work_id".data, .s workId), ("best_oa_location_id".data, .s l)]⟩) := by
  refine ⟨⟨?_, ?_⟩, ?_, ?_⟩
  · intro h
    unfold parseLocId at h
    cases hidx : idxOfChar ':' l with
    | none => exact Or.inl ((idx_none_iff ':' l).mp hidx)
    | some i =>
      simp only [hidx] at h
      by_cases hcond : i = 0 ∨ i = l.length - 1
      · obtain ⟨h1, h2, h3⟩ := idx_some_decomp hidx
        rcases hcond with rfl | hlast
        · refine Or.inr (Or.inl ⟨l.drop 1, ?_⟩)
          simpa using h1.symm
        · refine Or.inr (Or.inr ⟨l.take i, ?_, h2⟩)
          have hdrop : l.drop (i + 1) = [] := by
            apply List.drop_eq_nil_of_le
            omega
          rw [hdrop] at h1
          exact h1.symm
      · rw [if_neg hcond] at h
        simp at h
  · intro h
    rcases h with hno | ⟨t, rfl⟩ | ⟨s, rfl, hns⟩
    · have hidx := (idx_none_iff ':' l).mpr hno
      simp only [parseLocId, hidx]
    · simp [parseLocId, idxOfChar]
    · have hidx := idx_append ':' s [] hns
      simp only [parseLocId, hidx]
      rw [if_pos (Or.inr (by simp))]
  · intro sch nid h
    unfold parseLocId at h
    cases hidx : idxOfChar ':' l with
    | none => simp only [hidx] at h; exact absurd h (by simp)
    | some i =>
      simp only [hidx] at h
      by_cases hcond : i = 0 ∨ i = l.length - 1
      · rw [if_pos hcond] at h; simp at h
      · rw [if_neg hcond] at h
        push_neg at hcond
        obtain ⟨h1, h2, h3⟩ := idx_some_decomp hidx
        obtain ⟨hs, hn⟩ := Prod.mk.inj (Option.some.inj h)
        subst hs
        subst hn
        refine ⟨h1.symm, h2, ?_, ?_⟩
        · have hl : (l.take i).length = i := by
            rw [List.length_take]
            omega
          intro he
          rw [he] at hl
          simp at hl
          omega
        · have hl : (l.drop (i + 1)).length = l.length - (i + 1) := List.length_drop _ _
          intro he
          rw [he] at hl
          simp at hl
          omega
  · intro w g wantJson selfUrl rawId workId oa loc h1 h2 h3 h4
    unfold worksOaStage
    simp only [h1, h2, h3, h4]

/-- Witness for claim C3: the composite doi colon 10.1/abc is split at its
first colon, and a world whose catalog returns the colon-free composite
nodoi makes the works pipeline answer 502. -/
theorem claim_c3_witness :
    ("doi:10.1/abc".data = "doi".data ++ ':' :: "10.1/abc".data ∧
      ':' ∉ "doi".data ∧ "doi".data ≠ [] ∧ "10.1/abc".data ≠ []) ∧
    (worksOaStage { baseWorld with openAlex1 := fun _ => some ⟨some ⟨"nodoi".data⟩⟩ }
        false false [] [] "W1".data).1 =
      jsonOrText false 502
        ⟨"Unrecognized best_oa_location.id format".data, none,
          [("work_id".data, .s "W1".data), ("best_oa_location_id".data, .s "nodoi".data)]⟩ :=
  ⟨(claim_c3 "doi:10.1/abc".data).2.1 "doi".data "10.1/abc".data (by decide),
   (claim_c3 "nodoi".data).2.2
     { baseWorld with openAlex1 := fun _ => some ⟨some ⟨"nodoi".data⟩⟩ }
     false false [] [] "W1".data ⟨some ⟨"nodoi".data⟩⟩ ⟨"nodoi".data⟩
     rfl rfl rfl (by decide)⟩

/-! ## Claim C2: tier order in stream mode -/

/-- Claim C2: stream-mode tiered retrieval issues the primary (R2) get first
— it is the head of the call trace — and whenever the primary get returns an
object the response is built from that object with status 200 and the trace
contains no backup-tier (S3) call at all. -/
theorem claim_c2 (w : World) (g : Bool) (nameId key : Str) :
    (∃ rest, (streamRetrieve w g nameId key).2 = .evR2Get g key :: rest) ∧
    (∀ o, w.r2Get g key = some o →
      (streamRetrieve w g nameId key).1.status = 200 ∧
      (streamRetrieve w g nameId key).1.body = .stream (.fromR2 o) ∧
      ∀ e ∈ (streamRetrieve w g nameId key).2, e.isS3 = false) := by
  constructor
  · cases hr : w.r2Get g key with
    | some obj =>
      refine ⟨[], ?_⟩
      simp only [streamRetrieve, hr]
    | none =>
      unfold streamRetrieve
      simp only [hr]
      cases hs : s3GetObject w (s3BucketOf g) key with
      | some resp =>
        by_cases hok : respOk resp = true
        · exact ⟨[.evS3Get (s3BucketOf g) key], by simp [hok]⟩
        · exact ⟨[.evS3Get (s3BucketOf g) key], by simp [hok]⟩
      | none => exact ⟨[.evS3Get (s3BucketOf g) key], by simp⟩
  · intro o ho
    refine ⟨?_, ?_, ?_⟩
    · simp [streamRetrieve, ho]
    · simp [streamRetrieve, ho]
    · intro e he
      simp only [streamRetrieve, ho, List.mem_singleton] at he
      subst he
      rfl

/-- Witness for claim C2 in a world whose primary tier hits: status 200, the
body streamed from the primary object, and no backup call. -/
theorem claim_c2_witness :
    (streamRetrieve hitWorld false "W1".data "u1.pdf".data).1.status = 200 ∧
    (streamRetrieve hitWorld false "W1".data "u1.pdf".data).1.body =
      .stream (.fromR2 ⟨"bytes".data⟩) ∧
    ∀ e ∈ (streamRetrieve hitWorld false "W1".data "u1.pdf".data).2, e.isS3 = false :=
  (claim_c2 hitWorld false "W1".data "u1.pdf".data).2 ⟨"bytes".data⟩ rfl

/-! ## Claim C5: backup-tier status handling -/

/-- Claim C5: the backup-tier helpers never throw on an HTTP status —
s3HeadObject answers true exactly on status 200 and false on 403, 404 and
every other status; s3GetObject returns the response exactly on status 200
and null on every other status. -/
theorem claim_c5 (w : World) (bucket key : Str) :
    (s3HeadObject w bucket key = true ↔ w.s3HeadStatus bucket key = 200) ∧
    (∀ r, s3GetObject w bucket key = some r ↔
      ((w.s3GetResp bucket key).status = 200 ∧ r = w.s3GetResp bucket key)) ∧
    (s3GetObject w bucket key = none ↔ (w.s3GetResp bucket key).status ≠ 200) := by
  refine ⟨?_, ?_, ?_⟩
  · unfold s3HeadObject
    by_cases h200 : w.s3HeadStatus bucket key = 200
    · simp [h200]
    · rw [if_neg h200]
      by_cases h4 : w.s3HeadStatus bucket key = 404 ∨ w.s3HeadStatus bucket key = 403
      · rw [if_pos h4]
        simp [h200]
      · rw [if_neg h4]
        simp [h200]
  · intro r
    unfold s3GetObject
    by_cases h200 : (w.s3GetResp bucket key).status = 200
    · simp only [if_pos h200]
      constructor
      · intro h
        exact ⟨h200, (Option.some.inj h).symm⟩
      · intro h
        rw [h.2]
    · rw [if_neg h200]
      by_cases h4 : (w.s3GetResp bucket key).status = 404 ∨ (w.s3GetResp bucket key).status = 403
      · rw [if_pos h4]
        simp [h200]
      · rw [if_neg h4]
        simp [h200]
  · unfold s3GetObject
    by_cases h200 : (w.s3GetResp bucket key).status = 200
    · simp [h200]
    · rw [if_neg h200]
      by_cases h4 : (w.s3GetResp bucket key).status = 404 ∨ (w.s3GetResp bucket key).status = 403
      · rw [if_pos h4]
        simp [h200]
      · rw [if_neg h4]
        simp [h200]

/-- Witness for claim C5: in the base world every backup status is 404, so
the HEAD helper answers false and the GET helper answers null; in a world
answering 200 both succeed. -/
theorem claim_c5_witness :
    (s3HeadObject { baseWorld with s3HeadStatus := fun _ _ => 200 } [] [] = true) ∧
    (s3GetObject baseWorld [] [] = none) :=
  ⟨(claim_c5 { baseWorld with s3HeadStatus := fun _ _ => 200 } [] []).1.mpr rfl,
   (claim_c5 baseWorld [] []).2.2.mpr (by decide)⟩

/-! ## Claim C7: the stream-mode filename -/

/-- Claim C7: on every stream-mode success whose filename is built from an
identifier accepted by normalizeWorkId, the Content-Disposition filename
equals that work identifier with every character of the unsafe class removed
(and nothing else altered), followed by the kind-specific extension — on
canonical identifiers the source's underscore replacement and the removal
wording coincide, both being the identity. -/
theorem claim_c7 (up : Str → Option Str) (x wid : Str) (w : World) (g : Bool)
    (key : Str) (h : normalizeWorkId up x = some wid) :
    (streamRetrieve w g wid key).1.status = 200 →
    (streamRetrieve w g wid key).1.contentDispositionFilename =
      some (removeBadChars wid ++ fileExtOf g) := by
  have hc := normalizeWorkId_image h
  have hrep := canon_replaceBad hc
  have hrem := canon_removeBad hc
  intro h200
  unfold streamRetrieve at h200 ⊢
  cases hr : w.r2Get g key with
  | some obj =>
    simp only [hr]
    rw [hrep, hrem]
  | none =>
    simp only [hr] at h200 ⊢
    cases hs : s3GetObject w (s3BucketOf g) key with
    | some resp =>
      simp only [hs] at h200 ⊢
      by_cases hok : respOk resp = true
      · simp only [hok, if_true]
        rw [hrep, hrem]
      · simp [textResp, hok] at h200
    | none => simp [textResp, hs] at h200

/-- Witness for claim C7: the canonical identifier W1 streams from a primary
hit with filename W1.pdf, which equals its removal-sanitized form. -/
theorem claim_c7_witness :
    (streamRetrieve hitWorld false "W1".data "u1.pdf".data).1.status = 200 ∧
    (streamRetrieve hitWorld false "W1".data "u1.pdf".data).1.contentDispositionFilename =
      some (removeBadChars "W1".data ++ fileExtOf false) :=
  ⟨by decide,
   claim_c7 (fun _ => none) "w1".data "W1".data hitWorld false "u1.pdf".data
     (by decide) (by decide)⟩

/-! ## Claim C9: text-mode degradation of error objects -/

/-- Claim C9 counterexample: for the authentication failure object the
text-mode body is the error label, not the human-readable message field — the
two differ, so text mode does not degrade the object to its message field. -/
theorem claim_c9_counterexample :
    (jsonOrText false 401
      ⟨"Invalid or missing API key".data,
        some "API key expired on 2020-01-01 00:00:00".data, []⟩).body =
      .text "Invalid or missing API key".data ∧
    Body.text "Invalid or missing API key".data ≠
      Body.text "API key expired on 2020-01-01 00:00:00".data := by
  constructor
  · rfl
  · decide

/-- Claim C9 as amended: for every error outcome outside metadata mode with a
truthy error label, the response body is the plain-text error label (the
object's short code field), the message and diagnostic fields being dropped. -/
theorem claim_c9 (status : Nat) (obj : ErrObj) (h : strTruthy obj.error = true) :
    jsonOrText false status obj = textResp status obj.error := by
  unfold jsonOrText
  simp [h]

/-- Witness for the amended claim C9 at the 403 payment object. -/
theorem claim_c9_witness :
    jsonOrText false 403
      ⟨"Payment required".data,
        some "A credit card on file is required to download files".data, []⟩ =
      textResp 403 "Payment required".data :=
  claim_c9 403 _ (by decide)

/-! ## Claim C10: credentials without an expiry timestamp -/

/-- Claim C10: when the stored record carries no expires_at value,
checkApiKey answers valid with the coerced stored credit-card flag and no
error, and the outcome is independent of the clock and of date parsing — no
expiry comparison happens. -/
theorem claim_c10 (w : World) (req : Req) (key : Str) (rec : ApiKeyRecord)
    (hk : extractApiKey req = some key) (hdb : w.db key = .found rec)
    (he : rec.expires_at = none) :
    (checkApiKey w req).1 = ⟨true, rec.credit_card_on_file ≠ 0, none⟩ ∧
    ∀ (n : Int) (pd : Str → Option Int),
      checkApiKey { w with now := n, parseDate := pd } req = checkApiKey w req := by
  constructor
  · unfold checkApiKey
    simp only [hk, hdb, expiredTs, he]
  · intro n pd
    unfold checkApiKey
    simp only [hk]
    have hdb2 : ({ w with now := n, parseDate := pd } : World).db key = .found rec := hdb
    simp only [hdb2, hdb, expiredTs, he]

/-- Witness for claim C10: a found record with credit card on file and no
expiry validates, in the base request and a never-expiring world. -/
theorem claim_c10_witness :
    (checkApiKey c4World baseReq).1 = ⟨true, (1 : Int) ≠ 0, none⟩ ∧
    checkApiKey { c4World with now := 99, parseDate := fun _ => some 100 } baseReq =
      checkApiKey c4World baseReq :=
  ⟨(claim_c10 c4World baseReq "k".data ⟨1, none⟩ rfl rfl rfl).1,
   (claim_c10 c4World baseReq "k".data ⟨1, none⟩ rfl rfl rfl).2 99 (fun _ => some 100)⟩

/-! ## Handler-level support lemmas -/

lemma jsonOrText_status (b : Bool) (s : Nat) (o : ErrObj) :
    (jsonOrText b s o).status = s := by
  unfold jsonOrText jsonResp textResp
  split <;> rfl

lemma checkApiKey_no_catalog (w : World) (req : Req) :
    ∀ e ∈ (checkApiKey w req).2, e.isCatalog = false := by
  intro e he
  unfold checkApiKey at he
  cases hx : extractApiKey req with
  | none => simp [hx] at he
  | some k =>
    simp only [hx] at he
    cases hdb : w.db k with
    | fault =>
      simp only [hdb, List.mem_singleton] at he
      subst he
      rfl
    | notFound =>
      simp only [hdb, List.mem_singleton] at he
      subst he
      rfl
    | found rec =>
      simp only [hdb] at he
      cases hexp : expiredTs w rec with
      | some es =>
        simp only [hexp, List.mem_singleton] at he
        subst he
        rfl
      | none =>
        simp only [hexp, List.mem_singleton] at he
        subst he
        rfl

lemma streamRetrieve_no_catalog (w : World) (g : Bool) (nameId key : Str) :
    ∀ e ∈ (streamRetrieve w g nameId key).2, e.isCatalog = false := by
  intro e he
  unfold streamRetrieve at he
  cases hr : w.r2Get g key with
  | some obj =>
    simp only [hr, List.mem_singleton] at he
    subst he
    rfl
  | none =>
    simp only [hr] at he
    cases hs : s3GetObject w (s3BucketOf g) key with
    | some resp =>
      simp only [hs] at he
      by_cases hok : respOk resp = true
      · simp only [hok, if_true, List.mem_cons, List.mem_singleton,
          List.not_mem_nil, or_false] at he
        rcases he with rfl | rfl <;> rfl
      · simp only [hok, Bool.false_eq_true, if_false, List.mem_cons,
          List.mem_singleton, List.not_mem_nil, or_false] at he
        rcases he with rfl | rfl <;> rfl
    | none =>
      simp only [hs, List.mem_cons, List.mem_singleton, List.not_mem_nil,
        or_false] at he
      rcases he with rfl | rfl <;> rfl

lemma streamRetrieve_status (w : World) (g : Bool) (nameId key : Str) :
    (streamRetrieve w g nameId key).1.status = 200 ∨
    (streamRetrieve w g nameId key).1.status = 404 := by
  unfold streamRetrieve
  cases hr : w.r2Get g key with
  | some obj => simp only [hr]; exact Or.inl (by trivial)
  | none =>
    simp only [hr]
    cases hs : s3GetObject w (s3BucketOf g) key with
    | some resp =>
      simp only [hs]
      by_cases hok : respOk resp = true
      · simp only [hok, if_true]
        exact Or.inl (by trivial)
      · simp only [hok, Bool.false_eq_true, if_false]
        exact Or.inr (by trivial)
    | none =>
      simp only [hs]
      exact Or.inr (by trivial)

lemma metaCheck_no_catalog (w : World) (g : Bool) (r2Key : Option Str) :
    ∀ e ∈ (metaCheck w g r2Key).2, e.isCatalog = false := by
  intro e he
  unfold metaCheck at he
  cases r2Key with
  | none => simp at he
  | some key =>
    by_cases hsup : w.r2HeadSupported = true
    · simp only [hsup, if_true] at he
      by_cases hh : w.r2Head g key = true
      · simp only [hh, if_true, List.cons_append, List.nil_append, List.mem_cons,
          List.mem_singleton, List.not_mem_nil, or_false] at he
        rcases he with rfl | rfl <;> rfl
      · simp only [hh, Bool.false_eq_true, if_false] at he
        cases hget : w.r2Get g key <;>
          · simp only [hget, List.cons_append, List.nil_append, List.mem_cons,
              List.mem_singleton, List.not_mem_nil, or_false] at he
            rcases he with rfl | rfl | rfl <;> rfl
    · simp only [hsup, Bool.false_eq_true, if_false] at he
      cases hget : w.r2Get g key <;>
        · simp only [hget, List.cons_append, List.nil_append, List.mem_cons,
            List.mem_singleton, List.not_mem_nil, or_false] at he
          rcases he with rfl | rfl <;> rfl

lemma resolveTail_head (w : World) (g wantJson : Bool)
    (selfUrl rawId errWid nameId : Str) (workApi locIdOpt : Option Str)
    (scheme nativeId : Str) :
    ∃ rest,
      (resolveTail w g wantJson selfUrl rawId errWid nameId workApi locIdOpt
        scheme nativeId).2 = .evDynamo (tableOf g) nativeId :: rest := by
  unfold resolveTail
  cases hdy : w.dynamo (tableOf g) nativeId with
  | fault => exact ⟨[], by simp only [hdy]⟩
  | ok items =>
    simp only [hdy]
    by_cases hwj : wantJson = true
    · simp only [hwj, if_true]
      exact ⟨_, rfl⟩
    · simp only [hwj, Bool.false_eq_true, if_false]
      cases hh : items.head? with
      | none => exact ⟨[], rfl⟩
      | some it =>
        simp only [hh]
        cases hid : it.id with
        | none => exact ⟨[], rfl⟩
        | some u =>
          simp only [hid]
          by_cases hu : u.isEmpty = true
          · simp only [hu, if_true]
            exact ⟨[], rfl⟩
          · simp only [hu, Bool.false_eq_true, if_false]
            exact ⟨_, rfl⟩

lemma resolveTail_no_catalog (w : World) (g wantJson : Bool)
    (selfUrl rawId errWid nameId : Str) (workApi locIdOpt : Option Str)
    (scheme nativeId : Str) :
    ∀ e ∈ (resolveTail w g wantJson selfUrl rawId errWid nameId workApi locIdOpt
      scheme nativeId).2, e.isCatalog = false := by
  intro e he
  unfold resolveTail at he
  cases hdy : w.dynamo (tableOf g) nativeId with
  | fault =>
    simp only [hdy, List.mem_singleton] at he
    subst he
    rfl
  | ok items =>
    simp only [hdy] at he
    by_cases hwj : wantJson = true
    · simp only [hwj, if_true, List.mem_cons] at he
      rcases he with rfl | he
      · rfl
      · exact metaCheck_no_catalog w g _ e he
    · simp only [hwj, Bool.false_eq_true, if_false] at he
      cases hh : items.head? with
      | none =>
        simp only [hh, List.mem_singleton] at he
        subst he
        rfl
      | some it =>
        simp only [hh] at he
        cases hid : it.id with
        | none =>
          simp only [hid, List.mem_singleton] at he
          subst he
          rfl
        | some u =>
          simp only [hid] at he
          by_cases hu : u.isEmpty = true
          · simp only [hu, if_true, List.mem_singleton] at he
            subst he
            rfl
          · simp only [hu, Bool.false_eq_true, if_false, List.mem_cons] at he
            rcases he with rfl | he
            · rfl
            · exact streamRetrieve_no_catalog w g nameId (u ++ fileExtOf g) e he

lemma resolveTail_status_ne_400 (w : World) (g wantJson : Bool)
    (selfUrl rawId errWid nameId : Str) (workApi locIdOpt : Option Str)
    (scheme nativeId : Str) :
    (resolveTail w g wantJson selfUrl rawId errWid nameId workApi locIdOpt
      scheme nativeId).1.status ≠ 400 := by
  unfold resolveTail
  cases hdy : w.dynamo (tableOf g) nativeId with
  | fault =>
    simp only [hdy]
    intro hc
    rw [jsonOrText_status] at hc
    omega
  | ok items =>
    simp only [hdy]
    by_cases hwj : wantJson = true
    · simp only [hwj, if_true]
      intro hc
      simp [jsonResp] at hc
    · simp only [hwj, Bool.false_eq_true, if_false]
      cases hh : items.head? with
      | none =>
        intro hc
        simp [textResp] at hc
      | some it =>
        simp only [hh]
        cases hid : it.id with
        | none =>
          intro hc
          simp [textResp] at hc
        | some u =>
          simp only [hid]
          by_cases hu : u.isEmpty = true
          · simp only [hu, if_true]
            intro hc
            simp [textResp] at hc
          · simp only [hu, Bool.false_eq_true, if_false]
            intro hc
            have hst := streamRetrieve_status w g nameId (u ++ fileExtOf g)
            rw [hc] at hst
            omega

lemma resolveTail_json_nomapping (w : World) (g : Bool)
    (selfUrl rawId errWid nameId : Str) (workApi locIdOpt : Option Str)
    (scheme nativeId : Str)
    (hdyn : w.dynamo (tableOf g) nativeId = .ok []) :
    (resolveTail w g true selfUrl rawId errWid nameId workApi locIdOpt
      scheme nativeId).1 =
      jsonResp 200 (.metaJson
        { work_id := rawId, work_api := workApi, best_oa_location_id := locIdOpt,
          native_id := nativeId, native_id_namespace := scheme,
          mapping_found_in_dynamodb := false, file_uuid := none, file_key := none,
          in_r2 := false, in_s3 := false, download_url := none }) := by
  unfold resolveTail
  simp only [hdyn]
  rfl

lemma worksAuthStage_ok_fst (w : World) (req : Req) (g wantJson : Bool)
    (rawId workId : Str) (hauth : (checkApiKey w req).1 = ⟨true, true, none⟩) :
    (worksAuthStage w req g wantJson rawId workId).1 =
      (worksOaStage w g wantJson req.selfUrlNoJson rawId workId).1 := by
  unfold worksAuthStage
  simp [hauth]

lemma worksAuthStage_ok_snd (w : World) (req : Req) (g wantJson : Bool)
    (rawId workId : Str) (hauth : (checkApiKey w req).1 = ⟨true, true, none⟩) :
    (worksAuthStage w req g wantJson rawId workId).2 =
      (checkApiKey w req).2 ++
        (worksOaStage w g wantJson req.selfUrlNoJson rawId workId).2 := by
  unfold worksAuthStage
  simp [hauth]

lemma worksOaStage_fst (w : World) (g wantJson : Bool)
    (selfUrl rawId workId : Str) (oa : OAWork1) (loc : OALoc1)
    (scheme nativeId : Str)
    (hoa : w.openAlex1 workId = some oa) (hloc : oa.best_oa_location = some loc)
    (hparse : parseLocId loc.id = some (scheme, nativeId)) :
    (worksOaStage w g wantJson selfUrl rawId workId).1 =
      (resolveTail w g wantJson selfUrl rawId workId workId
        (some (apiUrl workId)) (some loc.id) scheme nativeId).1 := by
  unfold worksOaStage
  simp only [hoa, hloc, hparse]

lemma workAuthStage_ok_fst (w : World) (req : Req) (g wantJson : Bool)
    (rawId : Str) (st : IdState)
    (hauth : (checkApiKey w req).1 = ⟨true, true, none⟩) :
    (workAuthStage w req g wantJson rawId st).1 =
      (workResolveStage w req g wantJson rawId st).1 := by
  unfold workAuthStage
  simp [hauth]

lemma workAuthStage_ok_snd (w : World) (req : Req) (g wantJson : Bool)
    (rawId : Str) (st : IdState)
    (hauth : (checkApiKey w req).1 = ⟨true, true, none⟩) :
    (workAuthStage w req g wantJson rawId st).2 =
      (checkApiKey w req).2 ++ (workResolveStage w req g wantJson rawId st).2 := by
  unfold workAuthStage
  simp [hauth]

lemma workResolveStage_doi (w : World) (req : Req) (g wantJson : Bool)
    (rawId nid : Str) :
    workResolveStage w req g wantJson rawId (.doi nid) =
      resolveTail w g wantJson req.selfUrlNoJson rawId rawId rawId none none
        "doi".data nid := rfl

/-! ## Claim C1: the DOI bypass of the second worker -/

/-- Claim C1: on the second worker, every authorized request whose raw
identifier starts with the DOI prefix bypasses the catalog entirely — the
trace contains no OpenAlex call — and is used verbatim as the native_id of
the index lookup (the DynamoDB query event carries the raw identifier), and
the request is never rejected as an invalid work identifier (status 400). -/
theorem claim_c1 (w : World) (req : Req) (rawId fm : Str)
    (hm : req.method = "GET".data)
    (hp : jsSplit '/' (req.pathname.dropWhile (· = '/')) = ["work".data, rawId])
    (hf : req.formatParam = some fm)
    (hfv : fm = "pdf".data ∨ fm = "parsed-pdf".data)
    (hdoi : ("10.".data).isPrefixOf rawId = true)
    (hauth : (checkApiKey w req).1 = ⟨true, true, none⟩) :
    (∀ e ∈ (handleWork w req).2, e.isCatalog = false) ∧
    Ev.evDynamo (tableOf (fm == "parsed-pdf".data)) rawId ∈ (handleWork w req).2 ∧
    (handleWork w req).1.status ≠ 400 ∧
    (handleWork w req).1 =
      (resolveTail w (fm == "parsed-pdf".data)
        (jsToLower (jsOr req.jsonParam []) == "true".data)
        req.selfUrlNoJson rawId rawId rawId none none "doi".data rawId).1 := by
  have hred : handleWork w req =
      workAuthStage w req (fm == "parsed-pdf".data)
        (jsToLower (jsOr req.jsonParam []) == "true".data) rawId (.doi rawId) := by
    unfold handleWork
    rcases hfv with rfl | rfl
    · simp [hm, hp, hf, hdoi, (by decide : jsOr (some "pdf".data) [] = "pdf".data)]
    · simp [hm, hp, hf, hdoi,
        (by decide : jsOr (some "parsed-pdf".data) [] = "parsed-pdf".data)]
  have hsnd : (handleWork w req).2 =
      (checkApiKey w req).2 ++
        (resolveTail w (fm == "parsed-pdf".data)
          (jsToLower (jsOr req.jsonParam []) == "true".data)
          req.selfUrlNoJson rawId rawId rawId none none "doi".data rawId).2 := by
    rw [hred, workAuthStage_ok_snd w req _ _ rawId _ hauth, workResolveStage_doi]
  have hfst : (handleWork w req).1 =
      (resolveTail w (fm == "parsed-pdf".data)
        (jsToLower (jsOr req.jsonParam []) == "true".data)
        req.selfUrlNoJson rawId rawId rawId none none "doi".data rawId).1 := by
    rw [hred, workAuthStage_ok_fst w req _ _ rawId _ hauth, workResolveStage_doi]
  refine ⟨?_, ?_, ?_, hfst⟩
  · intro e he
    rw [hsnd] at he
    rcases List.mem_append.mp he with h | h
    · exact checkApiKey_no_catalog w req e h
    · exact resolveTail_no_catalog w _ _ _ _ _ _ _ _ _ _ e h
  · obtain ⟨rest, hrest⟩ := resolveTail_head w (fm == "parsed-pdf".data)
      (jsToLower (jsOr req.jsonParam []) == "true".data)
      req.selfUrlNoJson rawId rawId rawId none none "doi".data rawId
    rw [hsnd, hrest]
    exact List.mem_append_right _ (List.mem_cons_self _ _)
  · rw [hfst]
    exact resolveTail_status_ne_400 w _ _ _ _ _ _ _ _ _ _

/-- Witness for claim C1: the DOI 10.55x on the pdf format with a valid
credential — no catalog call, a DynamoDB query keyed by the raw DOI, and no
400 rejection. -/
theorem claim_c1_witness :
    (∀ e ∈ (handleWork doiWorld doiReq).2, e.isCatalog = false) ∧
    Ev.evDynamo (tableOf ("pdf".data == "parsed-pdf".data)) "10.55x".data ∈
      (handleWork doiWorld doiReq).2 ∧
    (handleWork doiWorld doiReq).1.status ≠ 400 ∧
    (handleWork doiWorld doiReq).1 =
      (resolveTail doiWorld ("pdf".data == "parsed-pdf".data)
        (jsToLower (jsOr doiReq.jsonParam []) == "true".data)
        doiReq.selfUrlNoJson "10.55x".data "10.55x".data "10.55x".data none none
        "doi".data "10.55x".data).1 :=
  claim_c1 doiWorld doiReq "10.55x".data "pdf".data rfl (by decide) rfl
    (Or.inl rfl) (by decide) (by decide)

/-! ## Claim C4: absent index entry in metadata mode -/

/-- Claim C4: when the index query succeeds with no matching entry, metadata
mode is not an error — the works handler answers 200 with a JSON document
whose mapping_found_in_dynamodb is false and whose file_uuid and download_url
are null. -/
theorem claim_c4 (w : World) (req : Req) (rawId kind workId : Str)
    (oa : OAWork1) (loc : OALoc1) (scheme nativeId : Str)
    (hm : req.method = "GET".data)
    (hp : jsSplit '/' (req.pathname.dropWhile (· = '/')) =
      ["works".data, rawId, "best_oa_location".data, kind])
    (hkind : kind = "pdf".data ∨ kind = "parsed-pdf".data)
    (hj : req.jsonParam = some "true".data)
    (hn : normalizeWorkId w.urlParse rawId = some workId)
    (hauth : (checkApiKey w req).1 = ⟨true, true, none⟩)
    (hoa : w.openAlex1 workId = some oa)
    (hloc : oa.best_oa_location = some loc)
    (hparse : parseLocId loc.id = some (scheme, nativeId))
    (hdyn : w.dynamo (tableOf (kind == "parsed-pdf".data)) nativeId = .ok []) :
    (handleWorks w req).1.status = 200 ∧
    (handleWorks w req).1 = jsonResp 200 (.metaJson
      { work_id := rawId, work_api := some (apiUrl workId),
        best_oa_location_id := some loc.id, native_id := nativeId,
        native_id_namespace := scheme, mapping_found_in_dynamodb := false,
        file_uuid := none, file_key := none, in_r2 := false, in_s3 := false,
        download_url := none }) := by
  have hred : handleWorks w req =
      worksAuthStage w req (kind == "parsed-pdf".data) true rawId workId := by
    unfold handleWorks
    rcases hkind with rfl | rfl
    · simp [hm, hp, hj, hn,
        (by decide : (jsToLower (jsOr (some "true".data) []) == "true".data) = true)]
    · simp [hm, hp, hj, hn,
        (by decide : (jsToLower (jsOr (some "true".data) []) == "true".data) = true)]
  have key : (handleWorks w req).1 = jsonResp 200 (.metaJson
      { work_id := rawId, work_api := some (apiUrl workId),
        best_oa_location_id := some loc.id, native_id := nativeId,
        native_id_namespace := scheme, mapping_found_in_dynamodb := false,
        file_uuid := none, file_key := none, in_r2 := false, in_s3 := false,
        download_url := none }) := by
    rw [hred, worksAuthStage_ok_fst w req _ _ rawId workId hauth,
      worksOaStage_fst w _ _ _ rawId workId oa loc scheme nativeId hoa hloc hparse,
      resolveTail_json_nomapping w _ _ rawId workId workId
        (some (apiUrl workId)) (some loc.id) scheme nativeId hdyn]
  exact ⟨by rw [key]; rfl, key⟩

/-- Witness for claim C4 at the concrete scenario: canonical id W1, catalog
location doi colon 10.1/abc, no index entry, metadata mode. -/
theorem claim_c4_witness :
    (handleWorks c4World baseReqJson).1.status = 200 ∧
    (handleWorks c4World baseReqJson).1 = jsonResp 200 (.metaJson
      { work_id := "W1".data, work_api := some (apiUrl "W1".data),
        best_oa_location_id := some "doi:10.1/abc".data,
        native_id := "10.1/abc".data, native_id_namespace := "doi".data,
        mapping_found_in_dynamodb := false, file_uuid := none, file_key := none,
        in_r2 := false, in_s3 := false, download_url := none }) :=
  claim_c4 c4World baseReqJson "W1".data "pdf".data "W1".data
    ⟨some ⟨"doi:10.1/abc".data⟩⟩ ⟨"doi:10.1/abc".data⟩ "doi".data "10.1/abc".data
    rfl (by decide) (Or.inl rfl) rfl (by decide) (by decide) rfl rfl
    (by decide) rfl

/-! ## Claim C6: expired credentials -/

lemma checkApiKey_expired (w : World) (req : Req) (key : Str)
    (rec : ApiKeyRecord) (es : Str) (t : Int)
    (hk : extractApiKey req = some key) (hdb : w.db key = .found rec)
    (he : rec.expires_at = some es) (hne : es.isEmpty = false)
    (hpd : w.parseDate es = some t) (ht : t ≤ w.now) :
    checkApiKey w req =
      (⟨false, false, some ("API key expired on ".data ++ es)⟩,
        [.evDbLookup key]) := by
  have hexp : expiredTs w rec = some es := by
    unfold expiredTs
    simp only [he, hne, Bool.false_eq_true, if_false, hpd, if_pos ht]
  unfold checkApiKey
  simp only [hk, hdb, hexp]

/-- Claim C6 as amended: an expired stored credential makes checkApiKey
answer invalid with a message carrying the stored expiry timestamp, and the
handler answers 401; the response is the jsonOrText rendering of the
authentication error object whose message field is that expired message — so
the JSON-mode body carries the timestamp, while the text-mode body is only
the fixed label Invalid or missing API key. -/
theorem claim_c6 (w : World) (req : Req) (rawId kind workId key : Str)
    (rec : ApiKeyRecord) (es : Str) (t : Int)
    (hm : req.method = "GET".data)
    (hp : jsSplit '/' (req.pathname.dropWhile (· = '/')) =
      ["works".data, rawId, "best_oa_location".data, kind])
    (hkind : kind = "pdf".data ∨ kind = "parsed-pdf".data)
    (hn : normalizeWorkId w.urlParse rawId = some workId)
    (hk : extractApiKey req = some key) (hdb : w.db key = .found rec)
    (he : rec.expires_at = some es) (hne : es.isEmpty = false)
    (hpd : w.parseDate es = some t) (ht : t ≤ w.now) :
    (checkApiKey w req).1 =
      ⟨false, false, some ("API key expired on ".data ++ es)⟩ ∧
    (handleWorks w req).1 =
      jsonOrText (jsToLower (jsOr req.jsonParam []) == "true".data) 401
        ⟨"Invalid or missing API key".data,
          some ("API key expired on ".data ++ es), []⟩ ∧
    (handleWorks w req).1.status = 401 := by
  have hck := checkApiKey_expired w req key rec es t hk hdb he hne hpd ht
  have hred : handleWorks w req =
      worksAuthStage w req (kind == "parsed-pdf".data)
        (jsToLower (jsOr req.jsonParam []) == "true".data) rawId workId := by
    unfold handleWorks
    rcases hkind with rfl | rfl
    · simp [hm, hp, hn]
    · simp [hm, hp, hn]
  have hmain : (handleWorks w req).1 =
      jsonOrText (jsToLower (jsOr req.jsonParam []) == "true".data) 401
        ⟨"Invalid or missing API key".data,
          some ("API key expired on ".data ++ es), []⟩ := by
    rw [hred]
    unfold worksAuthStage
    simp [hck, jsOr]
  exact ⟨by rw [hck], hmain, by rw [hmain, jsonOrText_status]⟩

/-- Witness for claim C6: the expired world in metadata mode — checkApiKey
carries the timestamp, the handler answers 401 with the error object. -/
theorem claim_c6_witness :
    (checkApiKey c6World baseReqJson).1 =
      ⟨false, false, some ("API key expired on ".data ++ "2020-01-01".data)⟩ ∧
    (handleWorks c6World baseReqJson).1 =
      jsonOrText (jsToLower (jsOr baseReqJson.jsonParam []) == "true".data) 401
        ⟨"Invalid or missing API key".data,
          some ("API key expired on ".data ++ "2020-01-01".data), []⟩ ∧
    (handleWorks c6World baseReqJson).1.status = 401 :=
  claim_c6 c6World baseReqJson "W1".data "pdf".data "W1".data "k".data
    ⟨1, some "2020-01-01".data⟩ "2020-01-01".data 0
    rfl (by decide) (Or.inl rfl) (by decide) (by decide) rfl rfl (by decide)
    rfl (by decide)

/-- Claim C6 counterexample: at an expired credential in text (non-JSON)
mode the handler does answer 401, but the body is only the fixed label — the
expiry timestamp carried by the checkApiKey error message appears nowhere in
the response body, so the 401 does not carry that message. -/
theorem claim_c6_counterexample :
    (handleWorks c6World baseReq).1.status = 401 ∧
    (handleWorks c6World baseReq).1.body =
      .text "Invalid or missing API key".data ∧
    (checkApiKey c6World baseReq).1.error =
      some ("API key expired on ".data ++ "2020-01-01".data) ∧
    hasSubstr "2020-01-01".data "Invalid or missing API key".data = false := by
  refine ⟨?_, ?_, ?_, ?_⟩ <;> decide

end OAContent
